import Mathlib

/-!
Shallow embedding of the listing pipeline of `src/pages/api/search.ts`
and the scoring routine of `src/lib/openaiScoring.ts`.

Conventions of the embedding:
* JavaScript numbers that the pipeline manipulates are modelled as exact
  rationals (`ℚ`); the one place where NaN matters (the score clamp in the
  scoring routine) uses the tagged type `JsNum`.
* `a ?? b` (nullish coalescing) is `orJs`; JavaScript truthiness of an
  optional number is "present and nonzero".
* The JS regular expressions are compiled by hand into deterministic
  left-to-right scanners with the same leftmost-match, greedy semantics;
  `\s` is modelled by the common ASCII whitespace characters.
* `crypto.randomUUID()` / `Math.random()` are modelled as explicitly
  passed fresh strings (one per call site).
-/

set_option maxRecDepth 8000

/-- JavaScript `a ?? b` on optional values: `b` only when `a` is nullish. -/
def orJs {α : Type} (a b : Option α) : Option α :=
  match a with
  | some x => some x
  | none => b

/-- A primitive raw-identifier value as scraped (number or string),
covering what `String(item.id)` and `if (item.id)` act on. Numeric ids
are modelled as integers. -/
inductive JsPrim where
  | num (n : Int)
  | str (s : String)
deriving DecidableEq

/-- `String(v)` for a primitive value. -/
def jsPrimToString : JsPrim → String
  | .num n => toString n
  | .str s => s

/-- JavaScript truthiness of a primitive value: `0` and `""` are falsy. -/
def jsPrimTruthy : JsPrim → Bool
  | .num n => decide (n ≠ 0)
  | .str s => decide (s ≠ "")

/-- A JavaScript number that may be NaN (used for the parsed oracle
score, where a missing or non-numeric `score` field coerces to NaN in
`Math.max`). -/
inductive JsNum where
  | val (q : ℚ)
  | nan
deriving DecidableEq

/-- `Math.max` on two JS numbers: NaN propagates. -/
def jsMax : JsNum → JsNum → JsNum
  | .val a, .val b => .val (max a b)
  | _, _ => .nan

/-- `Math.min` on two JS numbers: NaN propagates. -/
def jsMin : JsNum → JsNum → JsNum
  | .val a, .val b => .val (min a b)
  | _, _ => .nan

/-- `Math.round` on a finite JS number: rounds half toward positive
infinity, i.e. `⌊x + 1/2⌋`. -/
def jsRound (q : ℚ) : Int :=
  Int.floor (q + 1/2)

/-- The whitespace class `\s` of the JS regexes, restricted to the ASCII
whitespace characters that occur in listing text. -/
def isJsSpace (c : Char) : Bool :=
  c = ' ' || c = '\t' || c = '\n' || c = '\r' || c = Char.ofNat 11 || c = Char.ofNat 12

/-- Maximal digit run at the head of the text, with the rest
(the greedy `\d+`). -/
def splitDigits : List Char → List Char × List Char
  | [] => ([], [])
  | c :: cs =>
    if c.isDigit then
      let p := splitDigits cs
      (c :: p.1, p.2)
    else ([], c :: cs)

/-- Maximal whitespace run at the head of the text, with the rest
(the greedy `\s*`). -/
def splitWs : List Char → List Char × List Char
  | [] => ([], [])
  | c :: cs =>
    if isJsSpace c then
      let p := splitWs cs
      (c :: p.1, p.2)
    else ([], c :: cs)

/-- Decimal value of a digit run. -/
def digitsToNat (ds : List Char) : ℕ :=
  ds.foldl (fun n c => 10 * n + (c.toNat - '0'.toNat)) 0

/-- `parseFloat` of `<ds>.<frac>` for digit runs `ds` and `frac`
(exact rational value of the decimal literal). -/
def ratOfDigits (ds frac : List Char) : ℚ :=
  (digitsToNat ds : ℚ) + (digitsToNat frac : ℚ) / (10 ^ frac.length : ℚ)

/-- One attempt of `/(\d+(\.\d+)?)\s?(m2|m²)/i` anchored at the current
position: digits, optional fraction, at most one whitespace, then an
`m2`/`m²` unit marker (case-insensitive `m`). -/
def matchSizeAt (cs : List Char) : Option ℚ :=
  match splitDigits cs with
  | ([], _) => none
  | (ds, rest) =>
    let fr : List Char × List Char :=
      match rest with
      | '.' :: r =>
        match splitDigits r with
        | ([], _) => ([], rest)
        | (fs, r2) => (fs, r2)
      | _ => ([], rest)
    let rest3 : List Char :=
      match fr.2 with
      | c :: r => if isJsSpace c then r else fr.2
      | [] => []
    match rest3 with
    | m :: u :: _ =>
      if m.toLower = 'm' && (u = '2' || u = '²') then some (ratOfDigits ds fr.1)
      else none
    | _ => none

/-- Leftmost match of the size pattern over the whole text. -/
def scanSize : List Char → Option ℚ
  | [] => none
  | c :: cs =>
    match matchSizeAt (c :: cs) with
    | some q => some q
    | none => scanSize cs

/-- `parseSize` of the source: first `/(\d+(\.\d+)?)\s?(m2|m²)/i` match,
as a number. -/
def parseSize (text : String) : Option ℚ :=
  scanSize text.data

/-- Leftmost run of at least two digits (the `\d{2,}` group of the price
regex after whitespace stripping), as a number. -/
def scanPrice : List Char → Option ℕ
  | [] => none
  | c :: cs =>
    if c.isDigit then
      match cs with
      | d :: _ =>
        if d.isDigit then some (digitsToNat (splitDigits (c :: cs)).1)
        else scanPrice cs
      | [] => none
    else scanPrice cs

/-- `parsePrice` of the source: strip all whitespace, then match
`/(\d{2,})\s?(Kc|CZK)?/i`; only the digit group determines the value. -/
def parsePrice (text : String) : Option ℚ :=
  (scanPrice (text.data.filter (fun c => !isJsSpace c))).map (fun n => (n : ℚ))

/-- One attempt of `/(\d+)\s*\+?\s*kk/i` anchored at the current
position. -/
def matchRoomsAt (cs : List Char) : Option ℕ :=
  match splitDigits cs with
  | ([], _) => none
  | (ds, rest) =>
    let r1 := (splitWs rest).2
    let r2 : List Char :=
      match r1 with
      | '+' :: t => t
      | _ => r1
    let r3 := (splitWs r2).2
    match r3 with
    | a :: b :: _ =>
      if a.toLower = 'k' && b.toLower = 'k' then some (digitsToNat ds) else none
    | _ => none

/-- Leftmost match of `/(\d+)\s*\+?\s*kk/i`. -/
def scanRooms1 : List Char → Option ℕ
  | [] => none
  | c :: cs =>
    match matchRoomsAt (c :: cs) with
    | some n => some n
    | none => scanRooms1 cs

/-- One attempt of `/(\d+)\s*kk/i` anchored at the current position. -/
def matchRooms2At (cs : List Char) : Option ℕ :=
  match splitDigits cs with
  | ([], _) => none
  | (ds, rest) =>
    let r1 := (splitWs rest).2
    match r1 with
    | a :: b :: _ =>
      if a.toLower = 'k' && b.toLower = 'k' then some (digitsToNat ds) else none
    | _ => none

/-- Leftmost match of `/(\d+)\s*kk/i`. -/
def scanRooms2 : List Char → Option ℕ
  | [] => none
  | c :: cs =>
    match matchRooms2At (c :: cs) with
    | some n => some n
    | none => scanRooms2 cs

/-- `parseRooms` of the source: the `N+kk` family first, then the bare
`Nkk` family. -/
def parseRooms (text : String) : Option ℕ :=
  match scanRooms1 text.data with
  | some n => some n
  | none => scanRooms2 text.data

/-- One attempt of the first alternative `\d+\s*\+\s*kk` of the layout
regex, returning the matched characters verbatim. -/
def matchLayout1At (cs : List Char) : Option (List Char) :=
  match splitDigits cs with
  | ([], _) => none
  | (ds, rest) =>
    let w1 := splitWs rest
    match w1.2 with
    | '+' :: t =>
      let w2 := splitWs t
      match w2.2 with
      | a :: b :: _ =>
        if a.toLower = 'k' && b.toLower = 'k' then
          some (ds ++ w1.1 ++ '+' :: w2.1 ++ [a, b])
        else none
      | _ => none
    | _ => none

/-- One attempt of the second alternative `\d+\s*kk` of the layout
regex, returning the matched characters verbatim. -/
def matchLayout2At (cs : List Char) : Option (List Char) :=
  match splitDigits cs with
  | ([], _) => none
  | (ds, rest) =>
    let w1 := splitWs rest
    match w1.2 with
    | a :: b :: _ =>
      if a.toLower = 'k' && b.toLower = 'k' then some (ds ++ w1.1 ++ [a, b])
      else none
    | _ => none

/-- Leftmost match of `/\d+\s*\+\s*kk|\d+\s*kk/i`, first alternative
preferred at each position; yields `match[0]`. -/
def scanLayout : List Char → Option (List Char)
  | [] => none
  | c :: cs =>
    match matchLayout1At (c :: cs) with
    | some l => some l
    | none =>
      match matchLayout2At (c :: cs) with
      | some l => some l
      | none => scanLayout cs

/-- `deriveLayoutLabel` of the source: the matched substring of the
layout regex, verbatim. -/
def deriveLayoutLabel (text : String) : Option String :=
  (scanLayout text.data).map String.mk

/-- A raw scraped listing (`RawApifyListing`): every field may be
absent; numbers are exact rationals. -/
structure RawListing where
  id : Option JsPrim := none
  url : Option String := none
  title : Option String := none
  locality : Option String := none
  description : Option String := none
  price : Option ℚ := none
  size : Option ℚ := none
  area : Option ℚ := none
  rooms : Option ℚ := none
  images : Option (List String) := none
deriving DecidableEq

/-- The derived attributes block of a canonical listing. -/
structure DerivedAttributes where
  pricePerM2 : Option Int
  sizeM2 : Option ℚ
  layoutLabel : Option String
deriving DecidableEq

/-- A canonical listing (`RealEstateItem`); score fields are absent
until the merger attaches them. -/
structure RealEstateItem where
  id : String
  title : String
  url : String
  location : Option String
  price : Option ℚ
  sizeM2 : Option ℚ
  rooms : Option ℚ
  images : Option (List String)
  description : Option String
  raw : RawListing
  derived : DerivedAttributes
  aiScore : Option JsNum := none
  aiReason : Option String := none
  aiHighlights : Option (List String) := none
deriving DecidableEq

/-- One scoring result as built by the scoring routine. -/
structure ScoreResult where
  id : String
  aiScore : JsNum
  aiReason : String
  aiHighlights : List String
deriving DecidableEq

/-- The normalized request parameters; the zod schema makes the three
numeric parameters positive integers when supplied. -/
structure NormalizedSearchParams where
  city : String
  priceMax : Option ℕ := none
  priceM2Max : Option ℕ := none
  roomsFrom : Option ℕ := none
  keywords : List String := []
deriving DecidableEq

/-- UTF-8 encoding of one character (what `Buffer.from(url)` does per
code point). -/
def utf8EncodeChar (c : Char) : List ℕ :=
  let n := c.toNat
  if n < 128 then [n]
  else if n < 2048 then [192 + n / 64, 128 + n % 64]
  else if n < 65536 then [224 + n / 4096, 128 + n / 64 % 64, 128 + n % 64]
  else [240 + n / 262144, 128 + n / 4096 % 64, 128 + n / 64 % 64, 128 + n % 64]

/-- UTF-8 bytes of a string. -/
def utf8Bytes (s : String) : List ℕ :=
  (s.data.map utf8EncodeChar).flatten

/-- Standard base64 alphabet. -/
def b64Char (n : ℕ) : Char :=
  if n < 26 then Char.ofNat ('A'.toNat + n)
  else if n < 52 then Char.ofNat ('a'.toNat + (n - 26))
  else if n < 62 then Char.ofNat ('0'.toNat + (n - 52))
  else if n = 62 then '+'
  else '/'

/-- Standard base64 of a byte sequence, with `=` padding
(`Buffer.prototype.toString("base64")`). -/
def base64Encode : List ℕ → List Char
  | [] => []
  | [a] => [b64Char (a / 4), b64Char (a % 4 * 16), '=', '=']
  | [a, b] => [b64Char (a / 4), b64Char (a % 4 * 16 + b / 16), b64Char (b % 16 * 4), '=']
  | a :: b :: c :: rest =>
    b64Char (a / 4) :: b64Char (a % 4 * 16 + b / 16) ::
      b64Char (b % 16 * 4 + c / 64) :: b64Char (c % 64) :: base64Encode rest

/-- `Buffer.from(url).toString("base64")`. -/
def base64OfString (s : String) : String :=
  String.mk (base64Encode (utf8Bytes s))

/-- `createId` of the source: truthy raw id stringified; else truthy
URL base64-encoded; else the fresh random identifier
(`crypto.randomUUID()` modelled as the `fresh` argument). -/
def createId (fresh : String) (item : RawListing) : String :=
  match item.id with
  | some v =>
    if jsPrimTruthy v then jsPrimToString v
    else
      match item.url with
      | some u => if u ≠ "" then base64OfString u else fresh
      | none => fresh
  | none =>
    match item.url with
    | some u => if u ≠ "" then base64OfString u else fresh
    | none => fresh

/-- The `size && price ? Math.round(price / size) : undefined`
expression: present only when both operands are truthy (present and
nonzero). -/
def computePricePerM2 (size price : Option ℚ) : Option Int :=
  match size, price with
  | some s, some p => if s ≠ 0 ∧ p ≠ 0 then some (jsRound (p / s)) else none
  | _, _ => none

/-- `transformListing` of the source. `fresh` stands for the
`crypto.randomUUID()` value drawn if neither a truthy id nor a truthy
URL is available. The `Array.isArray(item.images)` guard is absorbed
into the typed `images` field. -/
def transformListing (fresh : String) (item : RawListing) : RealEstateItem :=
  let size := orJs item.size (orJs item.area (parseSize ((orJs item.description item.title).getD "")))
  let price := orJs item.price (parsePrice (item.description.getD ""))
  let pricePerM2 := computePricePerM2 size price
  let roomsText := (orJs item.title item.description).getD ""
  { id := createId fresh item
    title := item.title.getD "Bez názvu"
    url := item.url.getD "#"
    location := item.locality
    price := price
    sizeM2 := size
    rooms := orJs item.rooms ((parseRooms roomsText).map (fun n => (n : ℚ)))
    images := item.images
    description := item.description
    raw := item
    derived :=
      { pricePerM2 := pricePerM2
        sizeM2 := size
        layoutLabel := deriveLayoutLabel roomsText } }

/-- The dedup key of one raw listing:
`item.url ?? String(item.id ?? Math.random())`, the random draw modelled
by `rand`. -/
def dedupKey (rand : String) (item : RawListing) : String :=
  match item.url with
  | some u => u
  | none =>
    match item.id with
    | some v => jsPrimToString v
    | none => rand

/-- The listings paired with their dedup keys, the random stream indexed
by position. -/
def keyedListings (rand : ℕ → String) (l : List RawListing) : List (String × RawListing) :=
  l.enum.map (fun p => (dedupKey (rand p.1) p.2, p.2))

/-- The `Map`-based first-keeper loop of `deduplicate`: an entry is kept
exactly when its key was not seen before. -/
def dedupKeyed : List (String × RawListing) → List String → List (String × RawListing)
  | [], _ => []
  | p :: rest, seen =>
    if p.1 ∈ seen then dedupKeyed rest seen
    else p :: dedupKeyed rest (p.1 :: seen)

/-- `deduplicate` of the source: keep the first listing per identity
key, in input order. -/
def deduplicate (rand : ℕ → String) (l : List RawListing) : List RawListing :=
  (dedupKeyed (keyedListings rand l) []).map Prod.snd

/-- The first rejection test of the filter callback:
`params.priceM2Max && item.derived.pricePerM2 && item.derived.pricePerM2 > params.priceM2Max`
(truthiness of both operands, then the comparison). -/
def priceGuardCode (params : NormalizedSearchParams) (item : RealEstateItem) : Bool :=
  match params.priceM2Max, item.derived.pricePerM2 with
  | some m, some p => decide (m ≠ 0 ∧ p ≠ 0 ∧ (m : Int) < p)
  | _, _ => false

/-- The second rejection test of the filter callback:
`params.roomsFrom && item.rooms && item.rooms < params.roomsFrom`. -/
def roomsGuardCode (params : NormalizedSearchParams) (item : RealEstateItem) : Bool :=
  match params.roomsFrom, item.rooms with
  | some rf, some r => decide (rf ≠ 0 ∧ r ≠ 0 ∧ r < (rf : ℚ))
  | _, _ => false

/-- The filter callback of `postProcessListings`: `false` exactly when a
truthy supplied constraint meets a truthy listing field that violates
it. -/
def keepListing (params : NormalizedSearchParams) (item : RealEstateItem) : Bool :=
  if priceGuardCode params item then false
  else if roomsGuardCode params item then false
  else true

/-- The Filter Engine over canonical listings (the `.filter` call of
`postProcessListings`). -/
def filterListings (params : NormalizedSearchParams) (items : List RealEstateItem) : List RealEstateItem :=
  items.filter (keepListing params)

/-- Lookup in the JS `Map` built by `new Map(scores.map(s => [s.id, s]))`:
later entries overwrite earlier ones, so the last matching entry wins. -/
def lastFindScore : List ScoreResult → String → Option ScoreResult
  | [], _ => none
  | s :: rest, id =>
    match lastFindScore rest id with
    | some t => some t
    | none => if s.id = id then some s else none

/-- Overwrite exactly the three score fields of a listing with a
result's values. -/
def withScore (item : RealEstateItem) (s : ScoreResult) : RealEstateItem :=
  { item with
    aiScore := some s.aiScore
    aiReason := some s.aiReason
    aiHighlights := some s.aiHighlights }

/-- `mergeScores` of the source. -/
def mergeScores (items : List RealEstateItem) (scores : List ScoreResult) : List RealEstateItem :=
  items.map (fun item =>
    match lastFindScore scores item.id with
    | none => item
    | some s => withScore item s)

/-- The JSON-parsed shape of one oracle response, after `JSON.parse`
succeeded: the `score` field as the JS number it coerces to in
`Math.max` (NaN when missing or non-numeric), `reasoning` and
`highlights` as the optional fields read with `??`. -/
structure RawScoreObj where
  score : JsNum
  reasoning : Option String
  highlights : Option (List String)
deriving DecidableEq

/-- The result record of `parseScore`. -/
structure OpenAIScoreSchema where
  score : JsNum
  reasoning : String
  highlights : List String
deriving DecidableEq

/-- `parseScore` of the source: a failed `JSON.parse` (the `catch`
branch) degrades to the fixed parse-failure record; a parsed object is
clamped with `Math.min(100, Math.max(0, score))` and defaulted with
`??`. The `Except.error` side stands for "the response text is not
parseable as JSON". -/
def parseScore : Except Unit RawScoreObj → OpenAIScoreSchema
  | .error _ =>
    { score := .val 0
      reasoning := "OpenAI response could not be parsed."
      highlights := [] }
  | .ok p =>
    { score := jsMin (.val 100) (jsMax (.val 0) p.score)
      reasoning := p.reasoning.getD ""
      highlights := p.highlights.getD [] }

/-- The per-item result pushed by the loop body of
`scoreRealEstateItems`. -/
def mkScoreResult (item : RealEstateItem) (resp : Except Unit RawScoreObj) : ScoreResult :=
  let parsed := parseScore resp
  { id := item.id
    aiScore := parsed.score
    aiReason := parsed.reasoning
    aiHighlights := parsed.highlights }

/-- `scoreRealEstateItems` of the source, the oracle (completion call
plus `JSON.parse`) abstracted as a per-item response function; the
sequential loop over items is the map. -/
def scoreRealEstateItems (oracle : RealEstateItem → Except Unit RawScoreObj)
    (items : List RealEstateItem) : List ScoreResult :=
  items.map (fun item => mkScoreResult item (oracle item))

/-- The raw listing of the spec's normalization scenario. -/
def rawScenario : RawListing :=
  { title := some "Krásný byt 2+kk, 55 m2"
    description := some "Cena 4500000 Kc" }

/-- A raw listing with an explicit zero price and a positive explicit
size. -/
def rawPriceZero : RawListing :=
  { title := some "Byt"
    price := some 0
    size := some 50 }

/-- `computePricePerM2` produces a value exactly when both operands are
present and nonzero, and then it is the rounded quotient. -/
theorem computePricePerM2_eq_some (sz pr : Option ℚ) (v : Int) :
    computePricePerM2 sz pr = some v ↔
      ∃ p s : ℚ, pr = some p ∧ sz = some s ∧ p ≠ 0 ∧ s ≠ 0 ∧ v = jsRound (p / s) := by
  cases sz with
  | none => simp [computePricePerM2]
  | some s =>
    cases pr with
    | none => simp [computePricePerM2]
    | some p =>
      by_cases h : s ≠ 0 ∧ p ≠ 0
      · simp only [computePricePerM2, if_pos h, Option.some.injEq]
        constructor
        · intro hv
          exact ⟨p, s, rfl, rfl, h.2, h.1, hv.symm⟩
        · rintro ⟨p', s', hp', hs', _, _, hv⟩
          cases hp'
          cases hs'
          exact hv.symm
      · simp only [computePricePerM2, if_neg h]
        constructor
        · intro hv
          cases hv
        · rintro ⟨p', s', hp', hs', hp0, hs0, _⟩
          cases hp'
          cases hs'
          exact absurd ⟨hs0, hp0⟩ h

/-- Evaluation helper: the size the title of the scenario listing would
parse to. -/
theorem parseSize_scenario_title : parseSize "Krásný byt 2+kk, 55 m2" = some 55 := by
  rw [show parseSize "Krásný byt 2+kk, 55 m2" = some (ratOfDigits ['5','5'] []) from rfl,
    ratOfDigits, show digitsToNat ['5','5'] = 55 from rfl, show digitsToNat [] = 0 from rfl]
  norm_num

/-- C1 (counterexample): on the spec's scenario listing the normalizer
leaves `sizeM2` absent (and hence `pricePerM2` absent), not `55` and
`81818` as the claim states: `parseSize` reads the description, not the
title. -/
theorem c1_counterexample :
    (transformListing "f" rawScenario).sizeM2 = none ∧
    (transformListing "f" rawScenario).sizeM2 ≠ some 55 ∧
    (transformListing "f" rawScenario).derived.pricePerM2 ≠ some 81818 := by
  have h1 : (transformListing "f" rawScenario).sizeM2 = none := rfl
  have h2 : (transformListing "f" rawScenario).derived.pricePerM2 = none := rfl
  refine ⟨h1, ?_, ?_⟩
  · rw [h1]; simp
  · rw [h2]; simp

/-- C1 (amended): the normalizer extracts size from the description
first, the title only as fallback; on the scenario listing the
description has no m² marker, so `sizeM2` and `pricePerM2` are absent
even though the title alone would parse to 55, while price, rooms and
layout label come out as the claim states. -/
theorem c1_transform_scenario :
    (transformListing "f" rawScenario).price = some 4500000 ∧
    (transformListing "f" rawScenario).rooms = some 2 ∧
    (transformListing "f" rawScenario).derived.layoutLabel = some "2+kk" ∧
    (transformListing "f" rawScenario).sizeM2 = none ∧
    (transformListing "f" rawScenario).derived.pricePerM2 = none ∧
    parseSize "Krásný byt 2+kk, 55 m2" = some 55 := by
  refine ⟨?_, ?_, rfl, rfl, rfl, parseSize_scenario_title⟩
  · rw [show (transformListing "f" rawScenario).price = some ((4500000 : ℕ) : ℚ) from rfl]
    norm_num
  · rw [show (transformListing "f" rawScenario).rooms = some ((2 : ℕ) : ℚ) from rfl]
    norm_num

/-- C2 (counterexample): a listing with price 0 and a positive size gets
no `pricePerM2` at all, where the claim requires it to be present and
equal to 0. -/
theorem c2_counterexample :
    (transformListing "f" rawPriceZero).price = some 0 ∧
    (transformListing "f" rawPriceZero).sizeM2 = some 50 ∧
    ((0 : ℚ) < 50) ∧
    (transformListing "f" rawPriceZero).derived.pricePerM2 = none := by
  refine ⟨rfl, rfl, by norm_num, ?_⟩
  show computePricePerM2 (some 50) (some 0) = none
  simp [computePricePerM2]

/-- C2 (amended): `derived.pricePerM2` is present iff both `price` and
`sizeM2` are present and both are nonzero, and then it equals
`round(price / sizeM2)`; in particular a zero price (like a zero size)
makes it absent. -/
theorem c2_pricePerM2_invariant (fresh : String) (item : RawListing) (v : Int) :
    (transformListing fresh item).derived.pricePerM2 = some v ↔
      ∃ p s : ℚ, (transformListing fresh item).price = some p ∧
        (transformListing fresh item).sizeM2 = some s ∧
        p ≠ 0 ∧ s ≠ 0 ∧ v = jsRound (p / s) :=
  computePricePerM2_eq_some (transformListing fresh item).sizeM2
    (transformListing fresh item).price v

/-- C10: the top-level `sizeM2` and `derived.sizeM2` of a normalized
listing are the same value (both are the one extracted size). -/
theorem c10_sizeM2_consistent (fresh : String) (item : RawListing) :
    (transformListing fresh item).derived.sizeM2 = (transformListing fresh item).sizeM2 :=
  rfl

/-- The price-side rejection condition exactly as the claim words it:
constraint supplied, `pricePerM2` known, and `pricePerM2 > priceM2Max`. -/
def priceRejectClaim (params : NormalizedSearchParams) (item : RealEstateItem) : Bool :=
  match params.priceM2Max, item.derived.pricePerM2 with
  | some m, some p => decide ((m : Int) < p)
  | _, _ => false

/-- The rooms-side rejection condition exactly as the claim words it:
constraint supplied, `rooms` known, and `rooms < roomsFrom`. -/
def roomsRejectClaim (params : NormalizedSearchParams) (item : RealEstateItem) : Bool :=
  match params.roomsFrom, item.rooms with
  | some rf, some r => decide (r < (rf : ℚ))
  | _, _ => false

/-- The rooms-side rejection condition as the code actually behaves:
additionally the known `rooms` value must be nonzero (truthy). -/
def roomsRejectAmended (params : NormalizedSearchParams) (item : RealEstateItem) : Bool :=
  match params.roomsFrom, item.rooms with
  | some rf, some r => decide (r ≠ 0 ∧ r < (rf : ℚ))
  | _, _ => false

/-- The full rejection predicate of claim C3 as stated. -/
def rejectedPerClaim (params : NormalizedSearchParams) (item : RealEstateItem) : Bool :=
  priceRejectClaim params item || roomsRejectClaim params item

/-- The full rejection predicate amended to the code's behaviour
(a known-but-zero rooms value never rejects). -/
def rejectedAmendedFilter (params : NormalizedSearchParams) (item : RealEstateItem) : Bool :=
  priceRejectClaim params item || roomsRejectAmended params item

/-- Bool shape of the filter callback. -/
theorem ite_ite_eq_not_or (a b : Bool) :
    (if a then false else if b then false else true) = !(a || b) := by
  cases a <;> cases b <;> rfl

/-- With a positive supplied `priceM2Max`, the code's truthiness guard
coincides with the claim's supplied-and-known condition. -/
theorem priceGuardCode_eq (params : NormalizedSearchParams) (item : RealEstateItem)
    (hp : ∀ m, params.priceM2Max = some m → 0 < m) :
    priceGuardCode params item = priceRejectClaim params item := by
  unfold priceGuardCode priceRejectClaim
  cases hm : params.priceM2Max with
  | none => rfl
  | some m =>
    cases item.derived.pricePerM2 with
    | none => rfl
    | some p =>
      have h0 : 0 < m := hp m hm
      apply decide_eq_decide.mpr
      constructor
      · exact fun h => h.2.2
      · intro hlt
        refine ⟨h0.ne', ?_, hlt⟩
        omega

/-- With a positive supplied `roomsFrom`, the code's truthiness guard
coincides with the amended rooms condition (known and nonzero). -/
theorem roomsGuardCode_eq (params : NormalizedSearchParams) (item : RealEstateItem)
    (hr : ∀ rf, params.roomsFrom = some rf → 0 < rf) :
    roomsGuardCode params item = roomsRejectAmended params item := by
  unfold roomsGuardCode roomsRejectAmended
  cases hm : params.roomsFrom with
  | none => rfl
  | some rf =>
    cases item.rooms with
    | none => rfl
    | some r =>
      have h0 : 0 < rf := hr rf hm
      apply decide_eq_decide.mpr
      constructor
      · exact fun h => ⟨h.2.1, h.2.2⟩
      · exact fun h => ⟨h0.ne', h.1, h.2⟩

/-- The filter callback keeps a listing exactly when the amended
rejection predicate does not fire. -/
theorem keepListing_eq_not_rejected (params : NormalizedSearchParams) (item : RealEstateItem)
    (hp : ∀ m, params.priceM2Max = some m → 0 < m)
    (hr : ∀ rf, params.roomsFrom = some rf → 0 < rf) :
    keepListing params item = !(rejectedAmendedFilter params item) := by
  unfold keepListing rejectedAmendedFilter
  rw [ite_ite_eq_not_or, priceGuardCode_eq params item hp, roomsGuardCode_eq params item hr]

/-- A canonical listing whose rooms value is known and zero. -/
def itemRoomsZero : RealEstateItem :=
  { id := "rooms0"
    title := "Byt"
    url := "https://x/2"
    location := none
    price := none
    sizeM2 := none
    rooms := some 0
    images := none
    description := none
    raw := {}
    derived := { pricePerM2 := none, sizeM2 := none, layoutLabel := none } }

/-- A parameter set asking for at least two rooms. -/
def paramsRooms2 : NormalizedSearchParams :=
  { city := "Praha", roomsFrom := some 2 }

/-- C3 (counterexample): the engine keeps a listing with `rooms = 0`
even though the claim's rejection condition (`rooms < roomsFrom`,
rooms known) fires on it: zero is falsy, so the code never compares. -/
theorem c3_counterexample :
    filterListings paramsRooms2 [itemRoomsZero] ≠
      [itemRoomsZero].filter (fun i => !(rejectedPerClaim paramsRooms2 i)) ∧
    filterListings paramsRooms2 [itemRoomsZero] = [itemRoomsZero] ∧
    rejectedPerClaim paramsRooms2 itemRoomsZero = true ∧
    itemRoomsZero.rooms = some 0 := by
  have hkeep : keepListing paramsRooms2 itemRoomsZero = true := by
    have h1 : priceGuardCode paramsRooms2 itemRoomsZero = false := rfl
    have h2 : roomsGuardCode paramsRooms2 itemRoomsZero = false := by
      show decide ((2 : ℕ) ≠ 0 ∧ (0 : ℚ) ≠ 0 ∧ (0 : ℚ) < ((2 : ℕ) : ℚ)) = false
      simp
    rw [keepListing, h1, h2]
    rfl
  have hrej : rejectedPerClaim paramsRooms2 itemRoomsZero = true := by
    have h1 : roomsRejectClaim paramsRooms2 itemRoomsZero = true := by
      show decide ((0 : ℚ) < ((2 : ℕ) : ℚ)) = true
      simp
    rw [rejectedPerClaim, h1]
    rfl
  have hflt : filterListings paramsRooms2 [itemRoomsZero] = [itemRoomsZero] := by
    simp [filterListings, List.filter_cons, hkeep]
  refine ⟨?_, hflt, hrej, rfl⟩
  rw [hflt, List.filter_cons, hrej]
  simp

/-- C3 (amended): given positive supplied constraints, the Filter Engine
returns exactly the order-preserving subsequence of listings on which
the rejection predicate does not fire, where rejection is: supplied
`priceM2Max` with known `pricePerM2 > priceM2Max`, or supplied
`roomsFrom` with known **nonzero** `rooms < roomsFrom`; an absent
constraint or absent field never rejects, and neither does a known
`rooms = 0`. -/
theorem c3_filter_characterization (params : NormalizedSearchParams)
    (items : List RealEstateItem)
    (hp : ∀ m, params.priceM2Max = some m → 0 < m)
    (hr : ∀ rf, params.roomsFrom = some rf → 0 < rf) :
    List.Sublist (filterListings params items) items ∧
    filterListings params items =
      items.filter (fun i => !(rejectedAmendedFilter params i)) := by
  refine ⟨List.filter_sublist _, ?_⟩
  unfold filterListings
  induction items with
  | nil => rfl
  | cons a l ih =>
    rw [List.filter_cons, List.filter_cons, keepListing_eq_not_rejected params a hp hr, ih]

/-- Witness for C3: the amended characterization evaluated on the
concrete parameter set and listing of the counterexample. -/
theorem c3_filter_characterization_witness :
    List.Sublist (filterListings paramsRooms2 [itemRoomsZero]) [itemRoomsZero] ∧
    filterListings paramsRooms2 [itemRoomsZero] =
      [itemRoomsZero].filter (fun i => !(rejectedAmendedFilter paramsRooms2 i)) :=
  c3_filter_characterization paramsRooms2 [itemRoomsZero]
    (fun m hm => by simp [paramsRooms2] at hm)
    (fun rf hrf => by
      simp [paramsRooms2] at hrf
      omega)

/-- The keep-first loop returns an order-preserving subsequence of its
input. -/
theorem dedupKeyed_sublist (xs : List (String × RawListing)) (seen : List String) :
    List.Sublist (dedupKeyed xs seen) xs := by
  induction xs generalizing seen with
  | nil => exact List.Sublist.refl _
  | cons p rest ih =>
    rw [dedupKeyed]
    by_cases h : p.1 ∈ seen
    · rw [if_pos h]
      exact (ih seen).cons p
    · rw [if_neg h]
      exact (ih (p.1 :: seen)).cons₂ p

/-- Per key, the keep-first loop retains exactly the first entry
carrying that key (none if the key was already seen). -/
theorem dedupKeyed_filter_key (xs : List (String × RawListing)) (seen : List String)
    (k : String) :
    (dedupKeyed xs seen).filter (fun p => decide (p.1 = k)) =
      if k ∈ seen then [] else (xs.find? (fun p => decide (p.1 = k))).toList := by
  induction xs generalizing seen with
  | nil =>
    rw [dedupKeyed]
    by_cases h : k ∈ seen
    · rw [if_pos h]; rfl
    · rw [if_neg h]; rfl
  | cons p rest ih =>
    rw [dedupKeyed]
    by_cases hmem : p.1 ∈ seen
    · rw [if_pos hmem, ih seen]
      by_cases hk : k ∈ seen
      · rw [if_pos hk, if_pos hk]
      · rw [if_neg hk, if_neg hk, List.find?_cons]
        have hpk : p.1 ≠ k := fun h => hk (h ▸ hmem)
        simp [hpk]
    · rw [if_neg hmem, List.filter_cons]
      by_cases hpk : p.1 = k
      · subst hpk
        rw [ih (p.1 :: seen), if_pos (List.mem_cons_self _ _), if_neg hmem,
          List.find?_cons]
        simp
      · simp only [decide_eq_true_eq, if_neg hpk]
        rw [ih (p.1 :: seen)]
        by_cases hk : k ∈ seen
        · rw [if_pos (List.mem_cons_of_mem _ hk), if_pos hk]
        · have : k ∉ p.1 :: seen := by
            intro hc
            rcases List.mem_cons.mp hc with h | h
            · exact hpk h.symm
            · exact hk h
          rw [if_neg this, if_neg hk, List.find?_cons]
          simp [hpk]

/-- The keys surviving the keep-first loop are pairwise distinct and
disjoint from the already-seen keys. -/
theorem dedupKeyed_keys_nodup (xs : List (String × RawListing)) (seen : List String) :
    ((dedupKeyed xs seen).map Prod.fst).Nodup ∧
      ∀ k ∈ (dedupKeyed xs seen).map Prod.fst, k ∉ seen := by
  induction xs generalizing seen with
  | nil => exact ⟨List.nodup_nil, by intro k hk; cases hk⟩
  | cons p rest ih =>
    rw [dedupKeyed]
    by_cases hmem : p.1 ∈ seen
    · rw [if_pos hmem]
      exact ih seen
    · rw [if_neg hmem]
      obtain ⟨h1, h2⟩ := ih (p.1 :: seen)
      refine ⟨List.nodup_cons.mpr ⟨?_, h1⟩, ?_⟩
      · intro hc
        exact h2 _ hc (List.mem_cons_self _ _)
      · intro k hk hkseen
        rcases List.mem_cons.mp hk with rfl | hk'
        · exact hmem hkseen
        · exact h2 k hk' (List.mem_cons_of_mem _ hkseen)

/-- Forgetting the keys of the keyed listing sequence gives back the
input sequence. -/
theorem keyedListings_map_snd (rand : ℕ → String) (l : List RawListing) :
    (keyedListings rand l).map Prod.snd = l := by
  rw [keyedListings, List.map_map]
  exact List.enum_map_snd l

/-- Two raw listings sharing a URL, with different titles. -/
def rawUrlA : RawListing := { url := some "https://x/1", title := some "A" }

/-- Second listing with the same URL as `rawUrlA`. -/
def rawUrlB : RawListing := { url := some "https://x/1", title := some "B" }

/-- C4: the deduplicator returns an order-preserving subsequence (hence
no longer than the input) with pairwise-distinct identity keys, keeping
per key exactly the first entry bearing it; concretely, of two listings
sharing a URL only the first survives. -/
theorem c4_deduplicate (rand : ℕ → String) (l : List RawListing) :
    (deduplicate rand l).length ≤ l.length ∧
    List.Sublist (deduplicate rand l) l ∧
    ((dedupKeyed (keyedListings rand l) []).map Prod.fst).Nodup ∧
    (∀ k, (dedupKeyed (keyedListings rand l) []).filter (fun p => decide (p.1 = k)) =
      ((keyedListings rand l).find? (fun p => decide (p.1 = k))).toList) ∧
    deduplicate rand [rawUrlA, rawUrlB] = [rawUrlA] := by
  have hsub : List.Sublist (deduplicate rand l) l := by
    rw [deduplicate]
    have h := (dedupKeyed_sublist (keyedListings rand l) []).map Prod.snd
    rwa [keyedListings_map_snd] at h
  refine ⟨hsub.length_le, hsub, (dedupKeyed_keys_nodup _ _).1, ?_, rfl⟩
  intro k
  have h := dedupKeyed_filter_key (keyedListings rand l) [] k
  rwa [if_neg (List.not_mem_nil k)] at h

/-- The map lookup misses exactly when no result carries the id. -/
theorem lastFindScore_eq_none_iff (scores : List ScoreResult) (id : String) :
    lastFindScore scores id = none ↔ ∀ s ∈ scores, s.id ≠ id := by
  induction scores with
  | nil => simp [lastFindScore]
  | cons s rest ih =>
    rw [lastFindScore]
    cases h : lastFindScore rest id with
    | some t =>
      simp only [reduceCtorEq, false_iff]
      intro hall
      have : lastFindScore rest id = none :=
        ih.mpr (fun u hu => hall u (List.mem_cons_of_mem _ hu))
      rw [this] at h
      cases h
    | none =>
      by_cases hs : s.id = id
      · simp only [if_pos hs, reduceCtorEq, false_iff]
        intro hall
        exact hall s (List.mem_cons_self _ _) hs
      · simp only [if_neg hs]
        constructor
        · intro _
          intro u hu
          rcases List.mem_cons.mp hu with rfl | hu'
          · exact hs
          · exact ih.mp h u hu'
        · intro _
          trivial

/-- A successful map lookup returns a result from the sequence carrying
the looked-up id. -/
theorem lastFindScore_mem (scores : List ScoreResult) (id : String) (s : ScoreResult)
    (h : lastFindScore scores id = some s) : s ∈ scores ∧ s.id = id := by
  induction scores with
  | nil => cases h
  | cons t rest ih =>
    rw [lastFindScore] at h
    cases hr : lastFindScore rest id with
    | some u =>
      rw [hr] at h
      cases h
      obtain ⟨h1, h2⟩ := ih hr
      exact ⟨List.mem_cons_of_mem _ h1, h2⟩
    | none =>
      rw [hr] at h
      by_cases hs : t.id = id
      · rw [if_pos hs] at h
        cases h
        exact ⟨List.mem_cons_self _ _, hs⟩
      · rw [if_neg hs] at h
        cases h

/-- C5: the Score Merger preserves length and order; a listing with no
matching result passes through unchanged, and a listing with a matching
result gets exactly its three score fields overwritten with the values
of a matching result from the sequence. -/
theorem c5_mergeScores (items : List RealEstateItem) (scores : List ScoreResult) :
    (mergeScores items scores).length = items.length ∧
    ∀ (i : ℕ) (item : RealEstateItem), items[i]? = some item →
      ((∀ s ∈ scores, s.id ≠ item.id) → (mergeScores items scores)[i]? = some item) ∧
      ((∃ s ∈ scores, s.id = item.id) →
        ∃ s ∈ scores, s.id = item.id ∧
          (mergeScores items scores)[i]? = some (withScore item s)) := by
  refine ⟨by rw [mergeScores, List.length_map], ?_⟩
  intro i item hi
  constructor
  · intro hnone
    rw [mergeScores, List.getElem?_map, hi, Option.map_some',
      (lastFindScore_eq_none_iff scores item.id).mpr hnone]
  · intro hsome
    cases hfind : lastFindScore scores item.id with
    | none =>
      obtain ⟨s, hs, hid⟩ := hsome
      exact absurd hid ((lastFindScore_eq_none_iff scores item.id).mp hfind s hs)
    | some s =>
      obtain ⟨hmem, hid⟩ := lastFindScore_mem scores item.id s hfind
      refine ⟨s, hmem, hid, ?_⟩
      rw [mergeScores, List.getElem?_map, hi, Option.map_some', hfind]

/-- A concrete canonical listing used by witnesses. -/
def itemA : RealEstateItem :=
  { id := "a"
    title := "Byt A"
    url := "https://x/a"
    location := none
    price := none
    sizeM2 := none
    rooms := none
    images := none
    description := none
    raw := {}
    derived := { pricePerM2 := none, sizeM2 := none, layoutLabel := none } }

/-- Witness for C5: with no scores at all, a listing passes through the
merger unchanged. -/
theorem c5_mergeScores_witness : (mergeScores [itemA] [])[0]? = some itemA :=
  ((c5_mergeScores [itemA] []).2 0 itemA rfl).1 (by intro s hs; cases hs)

/-- A concrete canonical listing with id "b". -/
def itemB : RealEstateItem :=
  { id := "b"
    title := "Byt B"
    url := "https://x/b"
    location := none
    price := none
    sizeM2 := none
    rooms := none
    images := none
    description := none
    raw := {}
    derived := { pricePerM2 := none, sizeM2 := none, layoutLabel := none } }

/-- First of two score results sharing id "b". -/
def scoreB1 : ScoreResult :=
  { id := "b", aiScore := .val 1, aiReason := "first", aiHighlights := [] }

/-- Second of two score results sharing id "b". -/
def scoreB2 : ScoreResult :=
  { id := "b", aiScore := .val 2, aiReason := "second", aiHighlights := [] }

/-- C6 (counterexample): with two results sharing an id, the merged
listing carries the second result's values, not the first's as the
claim states. -/
theorem c6_counterexample :
    scoreB1.id = scoreB2.id ∧
    (mergeScores [itemB] [scoreB1, scoreB2])[0]? = some (withScore itemB scoreB2) ∧
    ((mergeScores [itemB] [scoreB1, scoreB2])[0]?).map (fun i => i.aiReason) =
      some (some "second") ∧
    (withScore itemB scoreB1).aiReason = some "first" ∧
    ("second" : String) ≠ "first" := by
  refine ⟨rfl, rfl, rfl, rfl, by decide⟩

/-- C6 (amended): the map built from the ScoreResult sequence keeps the
last write per id, so when duplicate ids occur, the **last** matching
occurrence's values are the ones applied to the listing. -/
theorem c6_lastFindScore_last_wins :
    (∀ (scores : List ScoreResult) (id : String),
      lastFindScore scores id = scores.reverse.find? (fun s => decide (s.id = id))) ∧
    (∀ (items : List RealEstateItem) (scores : List ScoreResult) (i : ℕ)
      (item : RealEstateItem) (s : ScoreResult),
      items[i]? = some item → lastFindScore scores item.id = some s →
      (mergeScores items scores)[i]? = some (withScore item s)) := by
  constructor
  · intro scores id
    induction scores with
    | nil => rfl
    | cons s rest ih =>
      rw [lastFindScore, ih, List.reverse_cons, List.find?_append]
      cases h : List.find? (fun u => decide (u.id = id)) rest.reverse with
      | some t => rfl
      | none =>
        by_cases hs : s.id = id
        · simp [List.find?_cons, hs]
        · simp [List.find?_cons, hs]
  · intro items scores i item s hi hfind
    rw [mergeScores, List.getElem?_map, hi, Option.map_some', hfind]

/-- Witness for C6: the merger applied where the map lookup hits the
second of two duplicate-id results. -/
theorem c6_last_wins_witness :
    (mergeScores [itemB] [scoreB1, scoreB2])[0]? = some (withScore itemB scoreB2) :=
  c6_lastFindScore_last_wins.2 [itemB] [scoreB1, scoreB2] 0 itemB scoreB2 rfl rfl

/-- Truthiness of the raw identifier (`if (item.id)`). -/
def idTruthy (item : RawListing) : Bool :=
  match item.id with
  | some v => jsPrimTruthy v
  | none => false

/-- Truthiness of the raw URL (`if (item.url)`). -/
def urlTruthy (item : RawListing) : Bool :=
  match item.url with
  | some u => decide (u ≠ "")
  | none => false

/-- C7 (amended): the canonical identifier is the stringified raw
identifier when the raw identifier is present **and truthy** (so not
for identifier 0 or ""); else the base64 encoding of the URL when the
URL is present and nonempty; else the fresh random identifier — and the
identifier is independent of the random draw (hence deterministic)
whenever a truthy identifier or nonempty URL is present. -/
theorem c7_createId_characterization :
    (∀ (f : String) (item : RawListing) (v : JsPrim),
      item.id = some v → jsPrimTruthy v = true → createId f item = jsPrimToString v) ∧
    (∀ (f : String) (item : RawListing) (u : String),
      idTruthy item = false → item.url = some u → u ≠ "" →
      createId f item = base64OfString u) ∧
    (∀ (f : String) (item : RawListing),
      idTruthy item = false → urlTruthy item = false → createId f item = f) ∧
    (∀ (f g : String) (item : RawListing),
      idTruthy item = true ∨ urlTruthy item = true → createId f item = createId g item) := by
  refine ⟨?_, ?_, ?_, ?_⟩
  · intro f item v hv htr
    simp [createId, hv, htr]
  · intro f item u hid hu hne
    cases hv : item.id with
    | none => simp [createId, hv, hu, hne]
    | some v =>
      have htr : jsPrimTruthy v = false := by rw [idTruthy, hv] at hid; exact hid
      simp [createId, hv, htr, hu, hne]
  · intro f item hid hurl
    have hunotruthy : ∀ u, item.url = some u → u = "" := by
      intro u hu
      rw [urlTruthy, hu] at hurl
      simpa using hurl
    cases hv : item.id with
    | none =>
      cases hu : item.url with
      | none => simp [createId, hv, hu]
      | some u => simp [createId, hv, hu, hunotruthy u hu]
    | some v =>
      have htr : jsPrimTruthy v = false := by rw [idTruthy, hv] at hid; exact hid
      cases hu : item.url with
      | none => simp [createId, hv, htr, hu]
      | some u => simp [createId, hv, htr, hu, hunotruthy u hu]
  · intro f g item h
    rcases h with hid | hurl
    · cases hv : item.id with
      | none => rw [idTruthy, hv] at hid; cases hid
      | some v =>
        have htr : jsPrimTruthy v = true := by rw [idTruthy, hv] at hid; exact hid
        simp [createId, hv, htr]
    · cases hu : item.url with
      | none => rw [urlTruthy, hu] at hurl; cases hurl
      | some u =>
        have hne : u ≠ "" := by
          rw [urlTruthy, hu] at hurl
          simpa using hurl
        cases hv : item.id with
        | none => simp [createId, hv, hu, hne]
        | some v =>
          cases htr : jsPrimTruthy v with
          | true => simp [createId, hv, htr]
          | false => simp [createId, hv, htr, hu, hne]

/-- A raw listing with identifier 0 and a URL. -/
def rawZeroId : RawListing := { id := some (.num 0), url := some "https://x/1" }

/-- A raw listing with identifier 0 and no URL. -/
def rawZeroIdNoUrl : RawListing := { id := some (.num 0) }

/-- C7 (counterexample): a present identifier 0 is **not** stringified —
the id falls through to the URL encoding; and with no URL such a record
gets a fresh random id each time, so determinism fails too. -/
theorem c7_counterexample :
    rawZeroId.id = some (JsPrim.num 0) ∧
    jsPrimToString (JsPrim.num 0) = "0" ∧
    createId "fresh" rawZeroId ≠ "0" ∧
    createId "fresh" rawZeroId = base64OfString "https://x/1" ∧
    createId "u1" rawZeroIdNoUrl = "u1" ∧
    createId "u2" rawZeroIdNoUrl = "u2" ∧
    ("u1" : String) ≠ "u2" := by
  refine ⟨rfl, rfl, by decide, rfl, rfl, rfl, by decide⟩

/-- A raw listing with a truthy numeric identifier. -/
def rawWithId : RawListing := { id := some (.num 7), url := some "https://x/9" }

/-- Witness for C7: the characterization evaluated at a truthy
identifier. -/
theorem c7_createId_witness :
    jsPrimTruthy (JsPrim.num 7) = true ∧ createId "w" rawWithId = jsPrimToString (JsPrim.num 7) :=
  ⟨by decide, c7_createId_characterization.1 "w" rawWithId (JsPrim.num 7) rfl (by decide)⟩

/-- The interval membership test `0 ≤ aiScore ≤ 100` as a JS comparison:
NaN is in no interval. -/
def jsNumInRange (lo hi : ℚ) : JsNum → Bool
  | .val q => decide (lo ≤ q ∧ q ≤ hi)
  | .nan => false

/-- C8: a malformed (non-JSON-parseable) oracle response for one item
degrades exactly that item to the fixed parse-failure result, and every
item's result — including all the other items of the batch — is a
function of that item and its own oracle response alone. -/
theorem c8_parse_failure_isolated (oracle : RealEstateItem → Except Unit RawScoreObj)
    (items : List RealEstateItem) (i : ℕ) (item : RealEstateItem)
    (hi : items[i]? = some item) (hbad : oracle item = .error ()) :
    (scoreRealEstateItems oracle items)[i]? =
      some { id := item.id
             aiScore := .val 0
             aiReason := "OpenAI response could not be parsed."
             aiHighlights := [] } ∧
    (∀ (j : ℕ) (itemJ : RealEstateItem), items[j]? = some itemJ →
      (scoreRealEstateItems oracle items)[j]? = some (mkScoreResult itemJ (oracle itemJ))) := by
  have hall : ∀ (j : ℕ) (itemJ : RealEstateItem), items[j]? = some itemJ →
      (scoreRealEstateItems oracle items)[j]? = some (mkScoreResult itemJ (oracle itemJ)) := by
    intro j itemJ hj
    rw [scoreRealEstateItems, List.getElem?_map, hj, Option.map_some']
  refine ⟨?_, hall⟩
  rw [hall i item hi, hbad]
  rfl

/-- An oracle that always fails to parse. -/
def oracleErr : RealEstateItem → Except Unit RawScoreObj := fun _ => .error ()

/-- Witness for C8: the parse-failure degradation evaluated on a
one-item batch with an always-malformed oracle. -/
theorem c8_parse_failure_witness :
    (scoreRealEstateItems oracleErr [itemA])[0]? =
      some { id := itemA.id
             aiScore := .val 0
             aiReason := "OpenAI response could not be parsed."
             aiHighlights := [] } :=
  (c8_parse_failure_isolated oracleErr [itemA] 0 itemA rfl rfl).1

/-- An oracle whose response parses as JSON but carries no usable score
(the coerced score is NaN, as for `JSON.parse("{}")`). -/
def oracleNan : RealEstateItem → Except Unit RawScoreObj :=
  fun _ => .ok { score := .nan, reasoning := none, highlights := none }

/-- C9 (counterexample): when the parsed response lacks a numeric score
(e.g. the empty JSON object the code itself substitutes for a null
completion), the clamp produces NaN, which lies in no interval — the
resulting aiScore is not in [0, 100]. -/
theorem c9_counterexample :
    (scoreRealEstateItems oracleNan [itemA])[0]? =
      some { id := itemA.id, aiScore := .nan, aiReason := "", aiHighlights := [] } ∧
    jsNumInRange 0 100 JsNum.nan = false := by
  exact ⟨rfl, rfl⟩

/-- C9 (amended): every per-item aiScore is either NaN (when the parsed
score itself was not an actual number) or a value clamped into
[0, 100]; a real-valued parsed score always lands in the interval. -/
theorem c9_aiScore_clamped (oracle : RealEstateItem → Except Unit RawScoreObj)
    (items : List RealEstateItem) (r : ScoreResult)
    (hr : r ∈ scoreRealEstateItems oracle items) :
    r.aiScore = JsNum.nan ∨ jsNumInRange 0 100 r.aiScore = true := by
  rw [scoreRealEstateItems] at hr
  obtain ⟨item, _, rfl⟩ := List.mem_map.mp hr
  cases oracle item with
  | error e =>
    right
    show decide ((0 : ℚ) ≤ 0 ∧ (0 : ℚ) ≤ 100) = true
    simp
  | ok p =>
    cases hs : p.score with
    | nan =>
      left
      show jsMin (.val 100) (jsMax (.val 0) p.score) = JsNum.nan
      rw [hs]
      rfl
    | val q =>
      right
      show jsNumInRange 0 100 (jsMin (.val 100) (jsMax (.val 0) p.score)) = true
      rw [hs]
      show decide ((0 : ℚ) ≤ min 100 (max 0 q) ∧ min 100 (max 0 q) ≤ (100 : ℚ)) = true
      have h1 : (0 : ℚ) ≤ min 100 (max 0 q) := le_min (by norm_num) (le_max_left 0 q)
      have h2 : min 100 (max 0 q) ≤ (100 : ℚ) := min_le_left _ _
      simp [h1, h2]

/-- Witness for C9: the clamped-range property evaluated on the
parse-failure result of a concrete batch. -/
theorem c9_aiScore_clamped_witness :
    (mkScoreResult itemA (Except.error ())).aiScore = JsNum.nan ∨
      jsNumInRange 0 100 (mkScoreResult itemA (Except.error ())).aiScore = true :=
  c9_aiScore_clamped oracleErr [itemA] (mkScoreResult itemA (Except.error ()))
    (List.mem_singleton.mpr rfl)
